import Mathlib

/-!
A shallow embedding of the graphene-validator input-validation engine
(`graphene_validator/utils.py`, `graphene_validator/validation.py`,
`graphene_validator/errors.py`, `graphene_validator/decorators.py`) together with
the example validator schema from `tests/validation_test_suite.py`, and theorems
settling the specification claims about it.

Modelling conventions:
- Python input values (dicts / lists / scalars / `None`) become the inductive `IVal`;
  dicts are insertion-ordered association lists, matching `dict.items()` order.
- graphene type descriptors become `GType` (scalar classes, input-object classes,
  and the `of_type`-carrying wrappers `NonNull` and `List`).
- User validator callables are Lean functions returning `Except VError IVal`:
  raising a `ValidationError` is the `Except.error` branch.  Exceptions that are
  not `ValidationError`s (Python `TypeError`, `KeyError`, `AttributeError`,
  `IndexError`) escape the orchestrator, and are modelled by the `PyErr` error
  channel of the orchestration functions themselves.
- The in-place mutation performed by `_do_validation` (`field[name] = new_value`
  through a reference obtained by `functools.reduce`) is modelled functionally:
  the reference walk yields the object at the walked path, and mutating it there
  is a functional update of the whole tree at that path.
- Which validators actually ran is observable through a `CallEv` trace that the
  orchestrator produces alongside its result: one event per field-validator call
  and one per subtree-validator call, in execution order.
-/

/-- InputValue: a concrete GraphQL input value as the Python code sees it —
a string or int scalar, a dict (ordered key/value pairs), a list, or `None`. -/
inductive IVal where
  | str (s : String)
  | int (n : Int)
  | obj (fields : List (String × IVal))
  | lst (items : List IVal)
  | null

mutual
def IVal.decEq : (a b : IVal) → Decidable (a = b)
  | .str a, .str b =>
    match String.decEq a b with
    | isTrue h => isTrue (by rw [h])
    | isFalse h => isFalse (by intro hc; cases hc; exact h rfl)
  | .int a, .int b =>
    match Int.decEq a b with
    | isTrue h => isTrue (by rw [h])
    | isFalse h => isFalse (by intro hc; cases hc; exact h rfl)
  | .obj a, .obj b =>
    match decEqFields a b with
    | isTrue h => isTrue (by rw [h])
    | isFalse h => isFalse (by intro hc; cases hc; exact h rfl)
  | .lst a, .lst b =>
    match decEqItems a b with
    | isTrue h => isTrue (by rw [h])
    | isFalse h => isFalse (by intro hc; cases hc; exact h rfl)
  | .null, .null => isTrue rfl
  | .str _, .int _ => isFalse (by intro h; cases h)
  | .str _, .obj _ => isFalse (by intro h; cases h)
  | .str _, .lst _ => isFalse (by intro h; cases h)
  | .str _, .null => isFalse (by intro h; cases h)
  | .int _, .str _ => isFalse (by intro h; cases h)
  | .int _, .obj _ => isFalse (by intro h; cases h)
  | .int _, .lst _ => isFalse (by intro h; cases h)
  | .int _, .null => isFalse (by intro h; cases h)
  | .obj _, .str _ => isFalse (by intro h; cases h)
  | .obj _, .int _ => isFalse (by intro h; cases h)
  | .obj _, .lst _ => isFalse (by intro h; cases h)
  | .obj _, .null => isFalse (by intro h; cases h)
  | .lst _, .str _ => isFalse (by intro h; cases h)
  | .lst _, .int _ => isFalse (by intro h; cases h)
  | .lst _, .obj _ => isFalse (by intro h; cases h)
  | .lst _, .null => isFalse (by intro h; cases h)
  | .null, .str _ => isFalse (by intro h; cases h)
  | .null, .int _ => isFalse (by intro h; cases h)
  | .null, .obj _ => isFalse (by intro h; cases h)
  | .null, .lst _ => isFalse (by intro h; cases h)

def decEqFields : (a b : List (String × IVal)) → Decidable (a = b)
  | [], [] => isTrue rfl
  | (k, v) :: r, (k2, v2) :: r2 =>
    match String.decEq k k2, IVal.decEq v v2, decEqFields r r2 with
    | isTrue h1, isTrue h2, isTrue h3 => isTrue (by rw [h1, h2, h3])
    | isFalse h1, _, _ => isFalse (by intro hc; cases hc; exact h1 rfl)
    | _, isFalse h2, _ => isFalse (by intro hc; cases hc; exact h2 rfl)
    | _, _, isFalse h3 => isFalse (by intro hc; cases hc; exact h3 rfl)
  | [], _ :: _ => isFalse (by intro h; cases h)
  | _ :: _, [] => isFalse (by intro h; cases h)

def decEqItems : (a b : List IVal) → Decidable (a = b)
  | [], [] => isTrue rfl
  | v :: r, v2 :: r2 =>
    match IVal.decEq v v2, decEqItems r r2 with
    | isTrue h2, isTrue h3 => isTrue (by rw [h2, h3])
    | isFalse h2, _ => isFalse (by intro hc; cases hc; exact h2 rfl)
    | _, isFalse h3 => isFalse (by intro hc; cases hc; exact h3 rfl)
  | [], _ :: _ => isFalse (by intro h; cases h)
  | _ :: _, [] => isFalse (by intro h; cases h)
end

instance : DecidableEq IVal := IVal.decEq

mutual
/-- Structural size of an input value, used to bound the BFS worklist. -/
def IVal.size : IVal → Nat
  | IVal.obj fs => 1 + sizeFields fs
  | IVal.lst items => 1 + sizeItems items
  | _ => 1
def sizeFields : List (String × IVal) → Nat
  | [] => 0
  | (_, v) :: rest => IVal.size v + sizeFields rest
def sizeItems : List IVal → Nat
  | [] => 0
  | v :: rest => IVal.size v + sizeItems rest
end

/-- One segment of a reconstructed path: a (possibly camel-cased) field name or a
list index, as produced by `_get_path` in `utils.py`. -/
inductive PathSeg where
  | fieldName (s : String)
  | listIdx (n : Nat)
deriving DecidableEq, Repr

/-- A Python exception that is not a `ValidationError` and therefore escapes the
orchestrator uncaught.  `fuelOut` never occurs for the fuel chosen by
`unpackInputTree` (see `unpackInputTree_fuel_never_out`). -/
inductive PyErr where
  | attributeError
  | typeError
  | keyError
  | indexError
  | fuelOut
deriving DecidableEq, Repr

/-- The `meta` payload of an error detail record (e.g. `{min, max}`), a small
string-keyed mapping with optional integer values. -/
abbrev MetaV := List (String × Option Int)

/-- One structured error detail dict, as accumulated into
`extensions.validationErrors`: optional `code`, optional `meta`, optional `path`
(the orchestrator fills `path` for field-level errors; subtree-level raisers
supply their own or none). -/
structure ErrDetail where
  code : Option String
  meta : Option MetaV
  path : Option (List PathSeg)
deriving DecidableEq, Repr

/-- A raised `ValidationError` (`errors.py`): the orchestrator only ever consumes
its `error_details` property.  The base class has `error_details = []`;
`SingleValidationError` subclasses yield one record with their `code` and `meta`. -/
structure VError where
  errorDetails : List ErrDetail

/-- A field-level validator callable (`validate_<field>` static method):
takes the field value, either returns a (possibly transformed) value or raises a
`ValidationError`.  The `info`/`**kwargs` arguments carry no validation
semantics in the source and are omitted. -/
abbrev FieldValF := IVal → Except VError IVal

/-- A subtree-level validator callable (a `validate` static method). -/
abbrev SubtreeValF := IVal → Except VError IVal

mutual
/-- A validator class: a graphene `InputObjectType` subclass, with its declared
fields (`getattr(cls, name)` results), its `validate_<field>` static methods
(keyed here by field name), and its optional whole-subtree `validate` method. -/
inductive VClass where
  | mk (fields : List (String × FieldDef))
       (fieldValidators : List (String × FieldValF))
       (subtreeValidator : Option SubtreeValF)

/-- What `getattr(validator, name)` yields for a declared field:
an `InputField(X)` (nested input object), a `List(X)`, or a mounted scalar
(anything else, the `else` branch of `_unpack_input_tree`). -/
inductive FieldDef where
  | inputField (ty : GType)
  | listField (ofType : GType)
  | scalarMount

/-- A graphene type descriptor: a scalar class, an input-object class, or one of
the `of_type`-carrying wrappers `NonNull` / `List`. -/
inductive GType where
  | scalarT (name : String)
  | inputObject (c : VClass)
  | nonNull (t : GType)
  | listT (t : GType)
end

def VClass.fields : VClass → List (String × FieldDef)
  | .mk fs _ _ => fs

def VClass.fieldValidators : VClass → List (String × FieldValF)
  | .mk _ fv _ => fv

def VClass.subtreeValidator : VClass → Option SubtreeValF
  | .mk _ _ sv => sv

/-- Models `_unwrap_validator` (utils.py): repeatedly dereference `of_type`
(`NonNull` and `List` are the wrappers that carry it) until a scalar or
input-object class is reached. -/
def unwrapValidator : GType → GType
  | GType.nonNull t => unwrapValidator t
  | GType.listT t => unwrapValidator t
  | t => t

/-- Models the check `isinstance(field_type.of_type._meta, ScalarOptions)` on a
list field's immediate element type: scalar classes have `ScalarOptions` meta,
input-object classes do not, and the wrapper types have no `_meta` at all
(an `AttributeError` in Python). -/
def isScalarMeta : GType → Except PyErr Bool
  | GType.scalarT _ => Except.ok true
  | GType.inputObject _ => Except.ok false
  | _ => Except.error PyErr.attributeError

def lookupFieldDef : List (String × FieldDef) → String → Option FieldDef
  | [], _ => none
  | (k, fd) :: rest, n => if k = n then some fd else lookupFieldDef rest n

/-- Models `getattr(validator, name)` in `_unpack_input_tree`: looking up the
declared field on the (unwrapped) validator class; a missing attribute is an
uncaught `AttributeError`. -/
def getattrField (g : GType) (name : String) : Except PyErr FieldDef :=
  match g with
  | GType.inputObject c =>
    match lookupFieldDef (VClass.fields c) name with
    | some fd => Except.ok fd
    | none => Except.error PyErr.attributeError
  | _ => Except.error PyErr.attributeError

def lookupValF : List (String × FieldValF) → String → Option FieldValF
  | [], _ => none
  | (k, f) :: rest, n => if k = n then some f else lookupValF rest n

/-- Models `getattr(validator, f"validate_{name}", lambda value, info, **kwargs: value)`:
the user's field validator if the class declares one, else the identity. -/
def lookupFieldValidator (g : GType) (name : String) : FieldValF :=
  match g with
  | GType.inputObject c =>
    match lookupValF (VClass.fieldValidators c) name with
    | some f => f
    | none => fun v => Except.ok v
  | _ => fun v => Except.ok v

/-- Models `getattr(validator, "validate", lambda values, info, **kwargs: values)`. -/
def lookupSubtreeValidator (g : GType) : SubtreeValF :=
  match g with
  | GType.inputObject c =>
    match VClass.subtreeValidator c with
    | some f => f
    | none => fun v => Except.ok v
  | _ => fun v => Except.ok v

/-- A worklist entry / field-validation task: the tuple
`(name, value, validator, parent, index)` of `_unpack_input_tree`.  The parent
back-reference is the parent tuple itself (`None` for top-level fields), giving
the singly-linked ancestry chain that `_get_path` walks. -/
inductive FieldEntry where
  | root (name : String) (value : IVal) (validator : GType) (idx : Option Nat)
  | child (name : String) (value : IVal) (validator : GType)
      (parent : FieldEntry) (idx : Option Nat)

def FieldEntry.make (name : String) (value : IVal) (validator : GType)
    (parent : Option FieldEntry) (idx : Option Nat) : FieldEntry :=
  match parent with
  | none => FieldEntry.root name value validator idx
  | some p => FieldEntry.child name value validator p idx

def FieldEntry.name : FieldEntry → String
  | .root n _ _ _ => n
  | .child n _ _ _ _ => n

def FieldEntry.value : FieldEntry → IVal
  | .root _ v _ _ => v
  | .child _ v _ _ _ => v

def FieldEntry.validator : FieldEntry → GType
  | .root _ _ c _ => c
  | .child _ _ c _ _ => c

def FieldEntry.parentOf : FieldEntry → Option FieldEntry
  | .root _ _ _ _ => none
  | .child _ _ _ p _ => some p

def FieldEntry.idx : FieldEntry → Option Nat
  | .root _ _ _ i => i
  | .child _ _ _ _ i => i

/-- Splitting a character list on a separator, matching Python `str.split(sep)`
(empty string gives `[""]`, adjacent separators give empty words). -/
def splitOnChar (sep : Char) : List Char → List (List Char)
  | [] => [[]]
  | c :: cs =>
    let r := splitOnChar sep cs
    if c = sep then [] :: r
    else
      match r with
      | w :: ws => (c :: w) :: ws
      | [] => [[c]]

/-- Python `str.title()` on a single word: first character upper-cased, the rest
lower-cased (exact for the purely alphabetic words used as field-name parts). -/
def wordTitle (w : String) : String :=
  match w.data with
  | [] => ""
  | c :: cs => String.mk (c.toUpper :: cs.map Char.toLower)

/-- Models `_to_camel_case` (utils.py): split on underscores, `title()` every
word but the first, and concatenate. -/
def toCamelCase (name : String) : String :=
  match (splitOnChar '_' name.data).map String.mk with
  | [] => ""
  | w :: ws => w ++ String.join (ws.map wordTitle)

def nameTransform (camel : Bool) (s : String) : String :=
  if camel then toCamelCase s else s

/-- Python truthiness of a parent's `idx` slot (`if pidx:`): `None` and `0` are
falsy, any other index is truthy. -/
def truthyIdx : Option Nat → Bool
  | some n => n ≠ 0
  | none => false

/-- The segments a parent entry inserts in front of the path: the parent's index
first when it is truthy — `path.insert(0, pidx)` runs after
`path.insert(0, name)` — so a parent index of `0` is dropped. -/
def idxSegs (pidx : Option Nat) : List PathSeg :=
  if truthyIdx pidx then [PathSeg.listIdx (pidx.getD 0)] else []

/-- The leaf entry's own contribution to the path:
`[idx, name] if idx is not None else [name]` — presence, not truthiness. -/
def leafSegs (camel : Bool) (name : String) (idx : Option Nat) : List PathSeg :=
  match idx with
  | some n => [PathSeg.listIdx n, PathSeg.fieldName (nameTransform camel name)]
  | none => [PathSeg.fieldName (nameTransform camel name)]

/-- The `while parent:` loop of `_get_path`: prepend each ancestor's name and,
when truthy, its index. -/
def pathAncestors (camel : Bool) : FieldEntry → List PathSeg → List PathSeg
  | .root pname _ _ pidx, acc =>
    idxSegs pidx ++ (PathSeg.fieldName (nameTransform camel pname) :: acc)
  | .child pname _ _ pparent pidx, acc =>
    pathAncestors camel pparent
      (idxSegs pidx ++ (PathSeg.fieldName (nameTransform camel pname) :: acc))

/-- Models `_get_path(field, camel_case)` (utils.py): reconstruct the path of a
field task from its ancestry chain. -/
def getPath (f : FieldEntry) (camel : Bool) : List PathSeg :=
  match f with
  | .root name _ _ idx => leafSegs camel name idx
  | .child name _ _ parent idx => pathAncestors camel parent (leafSegs camel name idx)

/-- Models `add_subtree_to_validate` in `_unpack_input_tree`: append the subtree
with its validator class unless the value is `None`. -/
def addSubtreeToValidate (tree : IVal) (validator : GType)
    (acc : List (IVal × GType)) : List (IVal × GType) :=
  match tree with
  | IVal.null => acc
  | t => acc ++ [(t, validator)]

def mkEntries (c : GType) (parent : Option FieldEntry) (i : Option Nat) :
    List (String × IVal) → List FieldEntry
  | [] => []
  | (n, v) :: rest => FieldEntry.make n v c parent i :: mkEntries c parent i rest

/-- Models `add_fields_to_unpack`: skip a `None` tree entirely; otherwise extend
the worklist with one entry per `tree.items()` pair.  A non-dict, non-`None`
tree has no `.items()` — an uncaught `AttributeError`. -/
def addFieldsToUnpack (tree : IVal) (validatorCls : GType)
    (parent : Option FieldEntry) (index : Option Nat) :
    Except PyErr (List FieldEntry) :=
  match tree with
  | IVal.null => Except.ok []
  | IVal.obj fs => Except.ok (mkEntries validatorCls parent index fs)
  | _ => Except.error PyErr.attributeError

/-- The `for idx, item in enumerate(value)` loop of the list-of-complex-types
branch: every non-`None` element contributes a subtree task and its fields are
enqueued tagged with the element index; `None` elements are skipped. -/
def unpackListItems (innerV : GType) (parent : FieldEntry) :
    List IVal → Nat → Except PyErr (List (IVal × GType) × List FieldEntry)
  | [], _ => Except.ok ([], [])
  | item :: rest, i =>
    match addFieldsToUnpack item innerV (some parent) (some i) with
    | Except.error e => Except.error e
    | Except.ok ents =>
      match unpackListItems innerV parent rest (i + 1) with
      | Except.error e => Except.error e
      | Except.ok (sts, ents2) =>
        Except.ok (addSubtreeToValidate item innerV [] ++ sts, ents ++ ents2)

/-- Total `IVal.size` of the values still on the BFS worklist. -/
def qsize : List FieldEntry → Nat
  | [] => 0
  | e :: rest => IVal.size (FieldEntry.value e) + qsize rest

/-- The `while fields_to_unpack:` loop of `_unpack_input_tree`, with explicit
fuel (consumed once per popped entry; `unpackInputTree` supplies enough fuel for
any input, see `unpackInputTree_fuel_never_out`).  Pops the queue front, unwraps
the entry's validator, looks the field up on it and dispatches:
nested input object / list of scalars / list of complex types / scalar. -/
def unpackLoop : Nat → List FieldEntry → List FieldEntry → List (IVal × GType) →
    Except PyErr (List FieldEntry × List (IVal × GType))
  | _, [], ftv, stv => Except.ok (ftv, stv)
  | 0, _ :: _, _, _ => Except.error PyErr.fuelOut
  | fuel + 1, e :: rest, ftv, stv =>
    let v := unwrapValidator (FieldEntry.validator e)
    match getattrField v (FieldEntry.name e) with
    | Except.error pe => Except.error pe
    | Except.ok (FieldDef.inputField ty) =>
      let innerV := unwrapValidator ty
      let stv2 := addSubtreeToValidate (FieldEntry.value e) innerV stv
      match addFieldsToUnpack (FieldEntry.value e) innerV (some e) none with
      | Except.error pe => Except.error pe
      | Except.ok newEntries => unpackLoop fuel (rest ++ newEntries) ftv stv2
    | Except.ok (FieldDef.listField ofTy) =>
      match isScalarMeta ofTy with
      | Except.error pe => Except.error pe
      | Except.ok true =>
        unpackLoop fuel rest
          (ftv ++ [FieldEntry.make (FieldEntry.name e) (FieldEntry.value e) v
            (FieldEntry.parentOf e) none]) stv
      | Except.ok false =>
        let innerV := unwrapValidator ofTy
        match FieldEntry.value e with
        | IVal.lst items =>
          match unpackListItems innerV e items 0 with
          | Except.error pe => Except.error pe
          | Except.ok (sts, ents) => unpackLoop fuel (rest ++ ents) ftv (stv ++ sts)
        | _ => Except.error PyErr.typeError
    | Except.ok FieldDef.scalarMount =>
      unpackLoop fuel rest
        (ftv ++ [FieldEntry.make (FieldEntry.name e) (FieldEntry.value e) v
          (FieldEntry.parentOf e) (FieldEntry.idx e)]) stv

/-- Models `_unpack_input_tree(input_tree, validator_cls)` (utils.py): seed the
BFS queue with the top-level items and run the loop, returning
`(fields_to_validate, subtrees_to_validate)` in discovery order.
A `None` value for a list-of-complex-types field reaches
`enumerate(None)` — an uncaught `TypeError`. -/
def unpackInputTree (inputTree : IVal) (validatorCls : GType) :
    Except PyErr (List FieldEntry × List (IVal × GType)) :=
  match addFieldsToUnpack inputTree validatorCls none none with
  | Except.error e => Except.error e
  | Except.ok initial => unpackLoop (qsize initial + 1) initial [] []

/-- Dictionary lookup `obj[k]` over the ordered pairs of an `IVal.obj`. -/
def objGet : List (String × IVal) → String → Option IVal
  | [], _ => none
  | (k, v) :: rest, n => if k = n then some v else objGet rest n

/-- Dictionary assignment `obj[k] = v`: replaces the existing entry in place or
appends a new one, preserving insertion order (Python dict semantics). -/
def setField : List (String × IVal) → String → IVal → List (String × IVal)
  | [], n, v => [(n, v)]
  | (k, w) :: rest, n, v =>
    if k = n then (k, v) :: rest else (k, w) :: setField rest n v

/-- Python truthiness of a path segment, as tested by the
`lambda obj, k: obj[k] if k else obj` step of the transform relocation:
the empty string and the index `0` are falsy. -/
def truthySeg : PathSeg → Bool
  | PathSeg.fieldName s => s ≠ ""
  | PathSeg.listIdx n => n ≠ 0

/-- Functional rendering of "walk the given segments by subscripting, then
assign `container[name] = v` at the object the walk reached": each walked
segment must resolve (`KeyError` / `IndexError` otherwise, `TypeError` for a
subscript of the wrong kind), and the final container must be a dict
(string-key assignment into a list is a `TypeError`). -/
def updateAtPath : IVal → List PathSeg → String → IVal → Except PyErr IVal
  | t, [], name, v =>
    match t with
    | IVal.obj fs => Except.ok (IVal.obj (setField fs name v))
    | _ => Except.error PyErr.typeError
  | t, seg :: restSegs, name, v =>
    match t, seg with
    | IVal.obj fs, PathSeg.fieldName k =>
      match objGet fs k with
      | some c =>
        match updateAtPath c restSegs name v with
        | Except.error e => Except.error e
        | Except.ok c2 => Except.ok (IVal.obj (setField fs k c2))
      | none => Except.error PyErr.keyError
    | IVal.lst items, PathSeg.listIdx n =>
      if h : n < items.length then
        match updateAtPath (items.get ⟨n, h⟩) restSegs name v with
        | Except.error e => Except.error e
        | Except.ok item2 => Except.ok (IVal.lst (items.set n item2))
      else Except.error PyErr.indexError
    | IVal.obj _, PathSeg.listIdx _ => Except.error PyErr.keyError
    | IVal.lst _, PathSeg.fieldName _ => Except.error PyErr.typeError
    | _, _ => Except.error PyErr.typeError

/-- Models the transform write-back of `_do_validation`:
`functools.reduce(lambda obj, k: obj[k] if k else obj, path[:-1], input_tree)`
followed by `field[name] = new_value`.  The reduce keeps the current object
whenever a segment is falsy, so the walk effectively follows only the truthy
segments of `path[:-1]`. -/
def applyTransform (tree : IVal) (path : List PathSeg) (name : String)
    (newValue : IVal) : Except PyErr IVal :=
  updateAtPath tree (path.dropLast.filter truthySeg) name newValue

/-- One entry of the validator-invocation trace: a `validate_<field>` call or a
subtree/root `validate` call. -/
inductive CallEv where
  | fieldCall (name : String)
  | subtreeCall
deriving DecidableEq, Repr

def withPath (p : List PathSeg) (d : ErrDetail) : ErrDetail :=
  { d with path := some p }

/-- One iteration of the field-level loop of `_do_validation`, without the
trace: call the field validator on the task's captured value; on a raise,
convert `error_details` into records stamped with the camel-cased path; on a
changed return value, write it back through the snake-cased path. -/
def fieldTaskOutcome (tree : IVal) (ftv : FieldEntry) :
    Except PyErr (IVal × List ErrDetail) :=
  match lookupFieldValidator (FieldEntry.validator ftv) (FieldEntry.name ftv)
      (FieldEntry.value ftv) with
  | Except.ok newValue =>
    if newValue = FieldEntry.value ftv then Except.ok (tree, [])
    else
      match applyTransform tree (getPath ftv false) (FieldEntry.name ftv) newValue with
      | Except.error e => Except.error e
      | Except.ok tree2 => Except.ok (tree2, [])
  | Except.error ve =>
    Except.ok (tree, (VError.errorDetails ve).map (withPath (getPath ftv true)))

/-- Phase 1 of `_do_validation`: run every field task in discovery order,
threading the (possibly transformed) input tree, accumulating error records in
order, and tracing one `fieldCall` per task. -/
def runFieldPhase (tree : IVal) :
    List FieldEntry → Except PyErr (IVal × List ErrDetail × List CallEv)
  | [] => Except.ok (tree, [], [])
  | ftv :: rest =>
    match fieldTaskOutcome tree ftv with
    | Except.error e => Except.error e
    | Except.ok (tree2, newErrs) =>
      match runFieldPhase tree2 rest with
      | Except.error e => Except.error e
      | Except.ok (t, errs, calls) =>
        Except.ok (t, newErrs ++ errs, CallEv.fieldCall (FieldEntry.name ftv) :: calls)

/-- Phase 2 of `_do_validation`: run each subtree task's `validate` method; a
raise contributes its `error_details` as-is (no path is attached); a successful
return value is discarded. -/
def runSubtreePhase : List (IVal × GType) → List ErrDetail × List CallEv
  | [] => ([], [])
  | (value, validator) :: rest =>
    let res := lookupSubtreeValidator validator value
    let o := runSubtreePhase rest
    match res with
    | Except.ok _ => (o.1, CallEv.subtreeCall :: o.2)
    | Except.error ve => (VError.errorDetails ve ++ o.1, CallEv.subtreeCall :: o.2)

/-- The aggregate error raised by `_do_validation`: a `ValidationGraphQLError`
with its constant message and `extensions.validationErrors` list. -/
structure GqlError where
  message : String
  validationErrors : List ErrDetail
deriving DecidableEq, Repr

/-- Outcome of one validation pass: the (possibly mutated) input tree, the
aggregate error if one was raised, and the validator-invocation trace. -/
structure VResult where
  tree : IVal
  raised : Option GqlError
  calls : List CallEv

/-- The tail of `_do_validation` after phase 1: run phase 2 only when phase 1
collected no errors (appending the implicit root subtree task last), then raise
the aggregate exactly when the error list is non-empty. -/
def assembleResult (tree1 : IVal) (root : GType) (stv : List (IVal × GType))
    (fieldErrors : List ErrDetail) (calls1 : List CallEv) : VResult :=
  match fieldErrors with
  | [] =>
    let o := runSubtreePhase (stv ++ [(tree1, root)])
    match o.1 with
    | [] => ⟨tree1, none, calls1 ++ o.2⟩
    | es => ⟨tree1, some ⟨"ValidationError", es⟩, calls1 ++ o.2⟩
  | es => ⟨tree1, some ⟨"ValidationError", es⟩, calls1⟩

/-- Models `_do_validation(info, input_tree, input_arg)` (validation.py):
unwrap the argument's type, unpack the tree into the two worklists, run the
field phase, and assemble the outcome.  `Except.error` is an uncaught non-
`ValidationError` exception escaping to the caller; `raised` is the
`ValidationGraphQLError`.  Note the aliasing caveat: the values captured in the
subtree worklist are the ones present at unpack time (in Python they alias the
input tree, so phase-1 in-place transforms are visible through them; none of
the theorems below depend on that visibility). -/
def doValidation (tree : IVal) (argTy : GType) : Except PyErr VResult :=
  match unpackInputTree tree (unwrapValidator argTy) with
  | Except.error e => Except.error e
  | Except.ok (ftv, stv) =>
    match runFieldPhase tree ftv with
    | Except.error e => Except.error e
    | Except.ok (tree1, fieldErrors, calls1) =>
      Except.ok (assembleResult tree1 (unwrapValidator argTy) stv fieldErrors calls1)

/-- The full ordered list of detail records one pass collects (field records
first, then — only when there were none — subtree records), the list the
aggregate error reports. -/
def collectedErrors (tree : IVal) (argTy : GType) : Except PyErr (List ErrDetail) :=
  match unpackInputTree tree (unwrapValidator argTy) with
  | Except.error e => Except.error e
  | Except.ok (ftv, stv) =>
    match runFieldPhase tree ftv with
    | Except.error e => Except.error e
    | Except.ok (tree1, fieldErrors, _) =>
      match fieldErrors with
      | [] => Except.ok (runSubtreePhase (stv ++ [(tree1, unwrapValidator argTy)])).1
      | es => Except.ok es

/-- Whether phase 1 of a pass produces at least one error detail record. -/
def hasFieldErrors (tree : IVal) (argTy : GType) : Bool :=
  match unpackInputTree tree (unwrapValidator argTy) with
  | Except.error _ => false
  | Except.ok (ftv, _) =>
    match runFieldPhase tree ftv with
    | Except.error _ => false
    | Except.ok (_, fieldErrors, _) => !fieldErrors.isEmpty

/-- The declared `Arguments` of a mutation class: each argument name mapped to
its declared graphene type. -/
structure MutationCls where
  argumentsTypes : List (String × GType)

/-- What `Wrapper.mutate` does before / instead of forwarding to the original
`mutate`: either the aggregate validation error propagates, or the original
business logic is invoked with the forwarded keyword arguments. -/
inductive MutOutcome where
  | raisedAggregate (g : GqlError)
  | completed (forwardedKwargs : List (String × IVal)) (validationCalls : List CallEv)

def lookupArg : List (String × GType) → String → Option GType
  | [], _ => none
  | (k, t) :: rest, n => if k = n then some t else lookupArg rest n

/-- Models `Wrapper.mutate` produced by the `validated` decorator
(decorators.py): when at least one keyword argument is present, take the first
`(key, value)` pair as the input tree, look its argument type up on
`cls.Arguments` (`AttributeError` when absent) and run `_do_validation`;
otherwise skip validation entirely.  The forwarded kwargs reflect the in-place
transforms of the first argument's tree; the remaining kwargs are passed through
untouched and unvalidated. -/
def wrapperMutate (cls : MutationCls) (kwargs : List (String × IVal)) :
    Except PyErr MutOutcome :=
  match kwargs with
  | [] => Except.ok (MutOutcome.completed [] [])
  | (k, tree) :: rest =>
    match lookupArg cls.argumentsTypes k with
    | none => Except.error PyErr.attributeError
    | some argTy =>
      match doValidation tree argTy with
      | Except.error e => Except.error e
      | Except.ok r =>
        match r.raised with
        | some g => Except.ok (MutOutcome.raisedAggregate g)
        | none => Except.ok (MutOutcome.completed ((k, r.tree) :: rest) r.calls)

/-- Python `str.strip()` (no argument): remove leading and trailing whitespace. -/
def strStrip (s : String) : String :=
  String.mk (((s.data.dropWhile Char.isWhitespace).reverse.dropWhile
    Char.isWhitespace).reverse)

/-- Python `str.strip(" ")`: remove leading and trailing space characters only. -/
def stripSpaces (s : String) : String :=
  String.mk (((s.data.dropWhile (fun c => c = ' ')).reverse.dropWhile
    (fun c => c = ' ')).reverse)

/-- Python `c in s` membership test for a single character. -/
def strContains (s : String) (c : Char) : Bool :=
  s.data.any (fun x => x = c)

/-- Python `str(x)` on the scalar values the test validators format (`None`,
ints and strings; the composite cases do not occur in this development). -/
def pyStr : Option IVal → String
  | some (IVal.str s) => s
  | some (IVal.int n) => toString n
  | some IVal.null => "None"
  | some (IVal.obj _) => "dict"
  | some (IVal.lst _) => "list"
  | none => "None"

/-- Python truthiness of an `inpt.get(...)` result, as used by the `validate`
methods of the test suite (`if inpt.get("people") and inpt.get("email")`). -/
def truthyV : Option IVal → Bool
  | none => false
  | some IVal.null => false
  | some (IVal.str s) => s ≠ ""
  | some (IVal.int n) => n ≠ 0
  | some (IVal.obj fs) => fs ≠ []
  | some (IVal.lst items) => items ≠ []

/-- Python `email.split("@")[0]`. -/
def emailLocalPart (s : String) : String :=
  String.mk ((splitOnChar '@' s.data).headD [])

/-- `PersonalDataInput.validate_the_name` (validation_test_suite.py):
empty string raises `EmptyString`, otherwise return `name.strip()`. -/
def validateTheName : FieldValF := fun v =>
  match v with
  | IVal.str s =>
    if s.data.length = 0 then
      Except.error ⟨[⟨some "EmptyString", none, none⟩]⟩
    else Except.ok (IVal.str (strStrip s))
  | _ => Except.ok v

/-- `PersonalDataInput.validate_the_age`: negative age raises `NegativeValue`. -/
def validateTheAge : FieldValF := fun v =>
  match v with
  | IVal.int n =>
    if n < 0 then Except.error ⟨[⟨some "NegativeValue", none, none⟩]⟩
    else Except.ok (IVal.int n)
  | _ => Except.ok v

/-- `PersonalDataInput.validate`: raises `NameEqualsAge` — whose
`error_details` carry the raiser-supplied path `["name"]` — when
`inpt.get("the_name") == str(inpt.get("the_age"))`. -/
def personalValidate : SubtreeValF := fun v =>
  match v with
  | IVal.obj fs =>
    match objGet fs "the_name" with
    | some (IVal.str s) =>
      if s = pyStr (objGet fs "the_age") then
        Except.error ⟨[⟨some "NameEqualsAge", none, some [PathSeg.fieldName "name"]⟩]⟩
      else Except.ok v
    | _ => Except.ok v
  | _ => Except.ok v

/-- `InputForTests.validate_email`: raises `InvalidEmailFormat` when no "@" is
present, otherwise returns `email.strip(" ")`. -/
def validateEmail : FieldValF := fun v =>
  match v with
  | IVal.str s =>
    if strContains s '@' then Except.ok (IVal.str (stripSpaces s))
    else Except.error ⟨[⟨some "InvalidEmailFormat", none, none⟩]⟩
  | _ => Except.ok v

def numberOutOfRange : IVal → Bool
  | IVal.int n => n < 0 || n > 9
  | _ => false

/-- `InputForTests.validate_numbers`: fewer than two numbers raises
`LengthNotInRange(min=2)`; any number outside `[0, 9]` raises
`NotInRange(min=0, max=9)`; otherwise returns the list unchanged. -/
def validateNumbers : FieldValF := fun v =>
  match v with
  | IVal.lst ns =>
    if ns.length < 2 then
      Except.error ⟨[⟨some "LengthNotInRange", some [("min", some 2), ("max", none)], none⟩]⟩
    else if ns.any numberOutOfRange then
      Except.error ⟨[⟨some "NotInRange", some [("min", some 0), ("max", some 9)], none⟩]⟩
    else Except.ok v
  | _ => Except.ok v

/-- `PersonalDataInput` (validation_test_suite.py): three scalar fields, field
validators for `the_name` and `the_age` (none for `email`), and a whole-object
`validate`. -/
def PersonalDataInput : VClass := VClass.mk
  [("the_name", FieldDef.scalarMount), ("the_age", FieldDef.scalarMount),
   ("email", FieldDef.scalarMount)]
  [("the_name", validateTheName), ("the_age", validateTheAge)]
  (some personalValidate)

/-- `InputForTests.validate`: when both `people` and `email` are truthy, raises
`NameAndAgeInEmail` unless the local part of the email equals
`f"{people[0].the_name}{people[0].the_age}"`. -/
def inputForTestsValidate : SubtreeValF := fun v =>
  match v with
  | IVal.obj fs =>
    if truthyV (objGet fs "people") && truthyV (objGet fs "email") then
      match objGet fs "people", objGet fs "email" with
      | some (IVal.lst (p0 :: _)), some (IVal.str email) =>
        let expected :=
          match p0 with
          | IVal.obj pfs => pyStr (objGet pfs "the_name") ++ pyStr (objGet pfs "the_age")
          | _ => ""
        if emailLocalPart email = expected then Except.ok v
        else Except.error ⟨[⟨some "NameAndAgeInEmail", none, none⟩]⟩
      | _, _ => Except.ok v
    else Except.ok v
  | _ => Except.ok v

/-- `InputForTests` (validation_test_suite.py): a scalar `email`, a list of
`PersonalDataInput` objects, a list of scalar ints, and a nested
`InputField(PersonalDataInput)`; field validators for `email` and `numbers`,
and a whole-object `validate`. -/
def InputForTests : VClass := VClass.mk
  [("email", FieldDef.scalarMount),
   ("people", FieldDef.listField (GType.inputObject PersonalDataInput)),
   ("numbers", FieldDef.listField (GType.scalarT "Int")),
   ("the_person", FieldDef.inputField (GType.inputObject PersonalDataInput))]
  [("email", validateEmail), ("numbers", validateNumbers)]
  (some inputForTestsValidate)

/-- A minimal validator class whose whole-object `validate` returns a value
different from its input (and never raises): it always returns
`{"x": "changed"}`. -/
def TransformingInput : VClass := VClass.mk
  [("x", FieldDef.scalarMount)]
  []
  (some fun _ => Except.ok (IVal.obj [("x", IVal.str "changed")]))

/-- The base `ValidationError` (errors.py): its `error_details` property is the
empty list. -/
def baseValidationError : VError := ⟨[]⟩

/-- A minimal validator class whose field validator for `x` raises the *base*
`ValidationError` (empty `error_details`) on every value. -/
def SilentFailInput : VClass := VClass.mk
  [("x", FieldDef.scalarMount)]
  [("x", fun _ => Except.error baseValidationError)]
  none

/-- The input of the path-correctness testable property:
`{people: [{theName: "", theAge: -1}], email: "bad"}`, with the snake-case keys
the engine actually receives. -/
def c3Tree : IVal := IVal.obj
  [("people", IVal.lst [IVal.obj [("the_name", IVal.str ""), ("the_age", IVal.int (-1))]]),
   ("email", IVal.str "bad")]


theorem IVal.size_pos : ∀ v : IVal, 1 ≤ IVal.size v := by
  intro v
  cases v <;> simp [IVal.size]

theorem qsize_append : ∀ a b : List FieldEntry, qsize (a ++ b) = qsize a + qsize b := by
  intro a b
  induction a with
  | nil => simp [qsize]
  | cons e rest ih => simp [qsize, ih]; omega

theorem FieldEntry.value_make (n : String) (v : IVal) (c : GType)
    (p : Option FieldEntry) (i : Option Nat) :
    FieldEntry.value (FieldEntry.make n v c p i) = v := by
  cases p <;> rfl

theorem qsize_mkEntries (c : GType) (p : Option FieldEntry) (i : Option Nat) :
    ∀ fs : List (String × IVal), qsize (mkEntries c p i fs) = sizeFields fs := by
  intro fs
  induction fs with
  | nil => rfl
  | cons kv rest ih =>
    obtain ⟨k, v⟩ := kv
    simp [mkEntries, qsize, FieldEntry.value_make, sizeFields, ih]

theorem addFieldsToUnpack_bound (t : IVal) (c : GType) (p : Option FieldEntry)
    (i : Option Nat) (l : List FieldEntry)
    (h : addFieldsToUnpack t c p i = Except.ok l) : qsize l + 1 ≤ IVal.size t := by
  cases t with
  | null =>
    simp [addFieldsToUnpack] at h
    subst h
    simp [qsize, IVal.size]
  | obj fs =>
    simp [addFieldsToUnpack] at h
    subst h
    simp [qsize_mkEntries, IVal.size]
    omega
  | str s => simp [addFieldsToUnpack] at h
  | int n => simp [addFieldsToUnpack] at h
  | lst items => simp [addFieldsToUnpack] at h

theorem addFieldsToUnpack_not_fuelOut (t : IVal) (c : GType) (p : Option FieldEntry)
    (i : Option Nat) : addFieldsToUnpack t c p i ≠ Except.error PyErr.fuelOut := by
  cases t <;> simp [addFieldsToUnpack]

theorem getattrField_not_fuelOut (g : GType) (n : String) :
    getattrField g n ≠ Except.error PyErr.fuelOut := by
  cases g with
  | inputObject c =>
    simp only [getattrField]
    cases lookupFieldDef (VClass.fields c) n <;> simp
  | scalarT s => simp [getattrField]
  | nonNull t => simp [getattrField]
  | listT t => simp [getattrField]

theorem isScalarMeta_not_fuelOut (g : GType) :
    isScalarMeta g ≠ Except.error PyErr.fuelOut := by
  cases g <;> simp [isScalarMeta]

theorem unpackListItems_bound (innerV : GType) (parent : FieldEntry) :
    ∀ (items : List IVal) (i : Nat) (sts : List (IVal × GType)) (ents : List FieldEntry),
      unpackListItems innerV parent items i = Except.ok (sts, ents) →
      qsize ents ≤ sizeItems items := by
  intro items
  induction items with
  | nil =>
    intro i sts ents h
    simp [unpackListItems] at h
    rw [h.2]
    simp [qsize, sizeItems]
  | cons item rest ih =>
    intro i sts ents h
    simp only [unpackListItems] at h
    cases haf : addFieldsToUnpack item innerV (some parent) (some i) with
    | error e => simp only [haf] at h; cases h
    | ok ents0 =>
      simp only [haf] at h
      cases hrec : unpackListItems innerV parent rest (i + 1) with
      | error e => simp only [hrec] at h; cases h
      | ok q =>
        obtain ⟨sts2, ents2⟩ := q
        simp only [hrec] at h
        have hents : ents = ents0 ++ ents2 := by
          cases h
          rfl
        have h1 := addFieldsToUnpack_bound item innerV (some parent) (some i) ents0 haf
        have h2 := ih (i + 1) sts2 ents2 hrec
        rw [hents, qsize_append]
        simp [sizeItems]
        omega

theorem unpackListItems_not_fuelOut (innerV : GType) (parent : FieldEntry) :
    ∀ (items : List IVal) (i : Nat),
      unpackListItems innerV parent items i ≠ Except.error PyErr.fuelOut := by
  intro items
  induction items with
  | nil => intro i; simp [unpackListItems]
  | cons item rest ih =>
    intro i
    simp only [unpackListItems]
    cases haf : addFieldsToUnpack item innerV (some parent) (some i) with
    | error e =>
      intro hc
      cases hc
      exact addFieldsToUnpack_not_fuelOut item innerV (some parent) (some i) haf
    | ok ents0 =>
      cases hrec : unpackListItems innerV parent rest (i + 1) with
      | error e =>
        intro hc
        cases hc
        exact ih (i + 1) hrec
      | ok q => simp

theorem unpackLoop_no_fuelOut :
    ∀ (fuel : Nat) (queue ftv : List FieldEntry) (stv : List (IVal × GType)),
      qsize queue < fuel →
      unpackLoop fuel queue ftv stv ≠ Except.error PyErr.fuelOut := by
  intro fuel
  induction fuel with
  | zero => intro queue ftv stv h; omega
  | succ f ih =>
    intro queue ftv stv h
    cases queue with
    | nil => simp [unpackLoop]
    | cons e rest =>
      have hq : IVal.size (FieldEntry.value e) + qsize rest < f + 1 := h
      have hpos := IVal.size_pos (FieldEntry.value e)
      simp only [unpackLoop]
      cases hga : getattrField (unwrapValidator (FieldEntry.validator e)) (FieldEntry.name e) with
      | error pe =>
        simp only [hga]
        intro hc
        cases hc
        exact getattrField_not_fuelOut _ _ hga
      | ok fd =>
        cases fd with
        | inputField ty =>
          simp only
          cases haf : addFieldsToUnpack (FieldEntry.value e) (unwrapValidator ty) (some e) none with
          | error pe =>
            simp only [haf]
            intro hc
            cases hc
            exact addFieldsToUnpack_not_fuelOut _ _ _ _ haf
          | ok newEntries =>
            simp only [haf]
            apply ih
            have hb := addFieldsToUnpack_bound _ _ _ _ _ haf
            rw [qsize_append]
            omega
        | listField ofTy =>
          simp only
          cases hsc : isScalarMeta ofTy with
          | error pe =>
            simp only [hsc]
            intro hc
            cases hc
            exact isScalarMeta_not_fuelOut _ hsc
          | ok b =>
            try simp only [hsc]
            cases b with
            | true =>
              apply ih
              omega
            | false =>
              cases hv : FieldEntry.value e with
              | lst items =>
                simp only [hv]
                cases hli : unpackListItems (unwrapValidator ofTy) e items 0 with
                | error pe =>
                  simp only [hli]
                  intro hc
                  cases hc
                  exact unpackListItems_not_fuelOut _ _ items 0 hli
                | ok q =>
                  obtain ⟨sts, ents⟩ := q
                  simp only [hli]
                  apply ih
                  have hb := unpackListItems_bound _ _ items 0 sts ents hli
                  rw [qsize_append]
                  rw [hv] at hq
                  simp [IVal.size] at hq
                  omega
              | str s => simp [hv]
              | int n => simp [hv]
              | obj fs => simp [hv]
              | null => simp [hv]
        | scalarMount =>
          simp only
          apply ih
          omega

/-- The fuel supplied by `unpackInputTree` always suffices: the modelled BFS
terminates on every input exactly as the Python loop does, and the `fuelOut`
error is unreachable. -/
theorem unpackInputTree_fuel_never_out (t : IVal) (c : GType) :
    unpackInputTree t c ≠ Except.error PyErr.fuelOut := by
  unfold unpackInputTree
  cases haf : addFieldsToUnpack t c none none with
  | error e =>
    intro hcontra
    cases hcontra
    exact addFieldsToUnpack_not_fuelOut t c none none haf
  | ok initial =>
    exact unpackLoop_no_fuelOut (qsize initial + 1) initial [] [] (by omega)

theorem runFieldPhase_calls_field_only :
    ∀ (tasks : List FieldEntry) (tree : IVal) (out : IVal × List ErrDetail × List CallEv),
      runFieldPhase tree tasks = Except.ok out → CallEv.subtreeCall ∉ out.2.2 := by
  intro tasks
  induction tasks with
  | nil =>
    intro tree out h
    simp [runFieldPhase] at h
    rw [← h]
    simp
  | cons ftv rest ih =>
    intro tree out h
    simp only [runFieldPhase] at h
    cases hft : fieldTaskOutcome tree ftv with
    | error e => simp only [hft] at h; cases h
    | ok p =>
      obtain ⟨tree2, newErrs⟩ := p
      simp only [hft] at h
      cases hrec : runFieldPhase tree2 rest with
      | error e => simp only [hrec] at h; cases h
      | ok q =>
        obtain ⟨t, errs, calls⟩ := q
        simp only [hrec] at h
        cases h
        intro hmem
        simp only [List.mem_cons] at hmem
        cases hmem with
        | inl habs => cases habs
        | inr hmem2 => exact ih tree2 (t, errs, calls) hrec hmem2

/-- Claim C1: for every input tree and validator set, if phase 1 (field-level
validation) produced at least one error detail record, then no subtree-level
validator — the root `validate` included — is invoked during the pass: the
trace of a completed pass contains no `subtreeCall` event at all.  (Phase 2 is
the only place subtree validators are applied, and it is guarded by
`if not errors:` in `_do_validation`.) -/
theorem validation_c1_field_errors_gate_subtree_validators
    (tree : IVal) (argTy : GType) (ftv : List FieldEntry) (stv : List (IVal × GType))
    (tree1 : IVal) (errs : List ErrDetail) (calls1 : List CallEv) (r : VResult)
    (hU : unpackInputTree tree (unwrapValidator argTy) = Except.ok (ftv, stv))
    (hF : runFieldPhase tree ftv = Except.ok (tree1, errs, calls1))
    (hE : errs ≠ [])
    (hD : doValidation tree argTy = Except.ok r) :
    CallEv.subtreeCall ∉ r.calls := by
  simp only [doValidation, hU, hF] at hD
  cases errs with
  | nil => exact absurd rfl hE
  | cons d ds =>
    simp only [assembleResult] at hD
    cases hD
    exact runFieldPhase_calls_field_only ftv tree (tree1, d :: ds, calls1) hF

/-- Witness for C1 at the input `{"email": "nope"}` against `InputForTests`:
the email field validator raises, and the completed pass ran no subtree
validator. -/
theorem validation_c1_witness :
    CallEv.subtreeCall ∉
      (VResult.mk (IVal.obj [("email", IVal.str "nope")])
        (some ⟨"ValidationError",
          [⟨some "InvalidEmailFormat", none, some [PathSeg.fieldName "email"]⟩]⟩)
        [CallEv.fieldCall "email"]).calls :=
  validation_c1_field_errors_gate_subtree_validators
    (IVal.obj [("email", IVal.str "nope")]) (GType.inputObject InputForTests)
    [FieldEntry.root "email" (IVal.str "nope") (GType.inputObject InputForTests) none] []
    (IVal.obj [("email", IVal.str "nope")])
    [⟨some "InvalidEmailFormat", none, some [PathSeg.fieldName "email"]⟩]
    [CallEv.fieldCall "email"] _ rfl rfl (by simp) rfl

/-- Claim C2: every `ValidationError` a user validator raises is caught and
converted to detail records (in the embedding the validator's only error
channel *is* the caught `ValidationError`; the `PyErr` channel of
`doValidation` carries exactly the non-`ValidationError` exceptions that the
orchestrator does not catch).  A completed pass raises the single aggregate —
with constant message "ValidationError" and precisely the collected ordered
record list — iff at least one record was collected, and returns silently iff
zero records were collected. -/
theorem validation_c2_aggregate_iff_details
    (tree : IVal) (argTy : GType) (r : VResult)
    (hD : doValidation tree argTy = Except.ok r) :
    (match r.raised with
     | some g => g.message = "ValidationError" ∧ g.validationErrors ≠ [] ∧
         collectedErrors tree argTy = Except.ok g.validationErrors
     | none => collectedErrors tree argTy = Except.ok []) := by
  simp only [doValidation] at hD
  cases hU : unpackInputTree tree (unwrapValidator argTy) with
  | error e => simp only [hU] at hD; cases hD
  | ok p =>
    obtain ⟨ftv, stv⟩ := p
    simp only [hU] at hD
    cases hF : runFieldPhase tree ftv with
    | error e => simp only [hF] at hD; cases hD
    | ok q =>
      obtain ⟨tree1, fieldErrors, calls1⟩ := q
      simp only [hF] at hD
      cases fieldErrors with
      | nil =>
        cases hS : (runSubtreePhase (stv ++ [(tree1, unwrapValidator argTy)])).1 with
        | nil =>
          simp only [assembleResult, hS] at hD
          cases hD
          show collectedErrors tree argTy = Except.ok []
          simp only [collectedErrors, hU, hF, hS]
        | cons d ds =>
          simp only [assembleResult, hS] at hD
          cases hD
          refine ⟨rfl, by simp, ?_⟩
          simp only [collectedErrors, hU, hF, hS]
      | cons d ds =>
        simp only [assembleResult] at hD
        cases hD
        refine ⟨rfl, by simp, ?_⟩
        simp only [collectedErrors, hU, hF]

/-- Witness for C2 at the input `{"email": "x"}` against `InputForTests`: the
pass raises the aggregate with message "ValidationError" carrying exactly the
one collected record. -/
theorem validation_c2_witness :
    GqlError.message
        ⟨"ValidationError", [⟨some "InvalidEmailFormat", none, some [PathSeg.fieldName "email"]⟩]⟩
        = "ValidationError" ∧
    GqlError.validationErrors
        ⟨"ValidationError", [⟨some "InvalidEmailFormat", none, some [PathSeg.fieldName "email"]⟩]⟩
        ≠ [] ∧
    collectedErrors (IVal.obj [("email", IVal.str "x")]) (GType.inputObject InputForTests) =
      Except.ok (GqlError.validationErrors
        ⟨"ValidationError", [⟨some "InvalidEmailFormat", none, some [PathSeg.fieldName "email"]⟩]⟩) :=
  validation_c2_aggregate_iff_details (IVal.obj [("email", IVal.str "x")])
    (GType.inputObject InputForTests)
    (VResult.mk (IVal.obj [("email", IVal.str "x")])
      (some ⟨"ValidationError",
        [⟨some "InvalidEmailFormat", none, some [PathSeg.fieldName "email"]⟩]⟩)
      [CallEv.fieldCall "email"]) rfl

/-- Claim C3: on the spec's path-correctness input
`{people: [{theName: "", theAge: -1}], email: "bad"}` the worklist is produced
in breadth-first discovery order — the top-level `email` task precedes the
nested `people[0]` tasks even though `people` appears first in the input — and
the aggregate reports the errors in exactly that order, with paths
`["email"]`, `["people", 0, "theName"]`, `["people", 0, "theAge"]`.  Field
errors precede subtree errors: here phase 1 collected errors, so phase 2
contributed none (no `subtreeCall` in the trace). -/
theorem validation_c3_bfs_discovery_order :
    (unpackInputTree c3Tree (GType.inputObject InputForTests)).map
        (fun p => p.1.map FieldEntry.name) =
      Except.ok ["email", "the_name", "the_age"] ∧
    doValidation c3Tree (GType.inputObject InputForTests) = Except.ok
      ⟨c3Tree,
       some ⟨"ValidationError",
         [⟨some "InvalidEmailFormat", none, some [PathSeg.fieldName "email"]⟩,
          ⟨some "EmptyString", none,
           some [PathSeg.fieldName "people", PathSeg.listIdx 0, PathSeg.fieldName "theName"]⟩,
          ⟨some "NegativeValue", none,
           some [PathSeg.fieldName "people", PathSeg.listIdx 0, PathSeg.fieldName "theAge"]⟩]⟩,
       [CallEv.fieldCall "email", CallEv.fieldCall "the_name", CallEv.fieldCall "the_age"]⟩ :=
  ⟨rfl, rfl⟩

/-- Counterexample to claim C4 as stated: a *null list* is not tolerated.  On
`{"people": null}` (a list-of-objects field whose value is `None`) the
traversal reaches `enumerate(None)` and an uncaught `TypeError` escapes —
rather than producing zero tasks and zero errors. -/
theorem validation_c4_counterexample :
    doValidation (IVal.obj [("people", IVal.null)]) (GType.inputObject InputForTests) =
      Except.error PyErr.typeError := rfl

/-- Claim C4, amended: the traversal tolerates a null value at the points the
code actually guards — a null top-level input (zero tasks and zero subtrees for
*any* validator class), a null nested input object, and a null element inside a
list of objects — producing zero errors and raising nothing; but a null value
for a list-of-objects field itself raises `TypeError` (see the
counterexample). -/
theorem validation_c4_null_tolerance_amended :
    (∀ cls : GType, unpackInputTree IVal.null cls = Except.ok ([], [])) ∧
    doValidation (IVal.obj [("the_person", IVal.null)]) (GType.inputObject InputForTests) =
      Except.ok ⟨IVal.obj [("the_person", IVal.null)], none, [CallEv.subtreeCall]⟩ ∧
    doValidation (IVal.obj [("people", IVal.lst [IVal.null])]) (GType.inputObject InputForTests) =
      Except.ok ⟨IVal.obj [("people", IVal.lst [IVal.null])], none, [CallEv.subtreeCall]⟩ :=
  ⟨fun _ => rfl, rfl, rfl⟩

/-- Claim C5 concerns `_get_path`'s treatment of an ancestor's list index.  The
code decides by *truthiness* (`if pidx:`), not presence: for a task
`people[0].pets[0].pet_name` the ancestor index `0` carried by the `pets` entry
is dropped — the rendered path is `["people", "pets", 0, "petName"]` instead of
the correct `["people", 0, "pets", 0, "petName"]` — while the same chain with
ancestor index `1` keeps its index.  The claim (explicit presence, index 0
preserved) states the intended behaviour; the code's truthiness test is the bug
the spec flags. -/
theorem paths_c5_ancestor_zero_index_dropped :
    getPath
      (FieldEntry.child "pet_name" (IVal.str "x") (GType.scalarT "String")
        (FieldEntry.child "pets" (IVal.lst []) (GType.scalarT "X")
          (FieldEntry.root "people" (IVal.lst []) (GType.inputObject InputForTests) none)
          (some 0))
        (some 0)) true =
      [PathSeg.fieldName "people", PathSeg.fieldName "pets", PathSeg.listIdx 0,
       PathSeg.fieldName "petName"] ∧
    getPath
      (FieldEntry.child "pet_name" (IVal.str "x") (GType.scalarT "String")
        (FieldEntry.child "pets" (IVal.lst []) (GType.scalarT "X")
          (FieldEntry.root "people" (IVal.lst []) (GType.inputObject InputForTests) none)
          (some 1))
        (some 0)) true =
      [PathSeg.fieldName "people", PathSeg.listIdx 1, PathSeg.fieldName "pets",
       PathSeg.listIdx 0, PathSeg.fieldName "petName"] :=
  ⟨rfl, rfl⟩

/-- Counterexample to claim C6 as stated: the relocation walk does *not* walk
every path segment except the last — the reduce step skips falsy segments
(`obj[k] if k else obj`), so the list index `0` is skipped.  A field validator
transform inside list element 0 (`validate_the_name` trimming `" a "`) makes
the walk stop at the `people` *list* and attempt the string-key assignment
`list["the_name"] = ...`: an uncaught `TypeError`, not an applied transform. -/
theorem validation_c6_counterexample :
    doValidation
      (IVal.obj [("people",
        IVal.lst [IVal.obj [("the_name", IVal.str " a "), ("the_age", IVal.int 0)]])])
      (GType.inputObject InputForTests) = Except.error PyErr.typeError := rfl

/-- Claim C6, amended: the relocation walks the *truthy* segments of
`path[:-1]` and overwrites the field in the container reached.  Transforms are
applied in place for top-level fields, nested-object fields, and list elements
at non-zero indices (a raising validator never applies one — the raise
branches away before the write-back, as the C3 theorem's unchanged tree also
shows); a transform inside list element 0 raises `TypeError` instead (see the
counterexample). -/
theorem validation_c6_transform_propagation_amended :
    doValidation (IVal.obj [("email", IVal.str " a0@b.c ")]) (GType.inputObject InputForTests) =
      Except.ok ⟨IVal.obj [("email", IVal.str "a0@b.c")], none,
        [CallEv.fieldCall "email", CallEv.subtreeCall]⟩ ∧
    doValidation
        (IVal.obj [("the_person",
          IVal.obj [("the_name", IVal.str " a "), ("the_age", IVal.int 0)])])
        (GType.inputObject InputForTests) =
      Except.ok ⟨IVal.obj [("the_person",
          IVal.obj [("the_name", IVal.str "a"), ("the_age", IVal.int 0)])], none,
        [CallEv.fieldCall "the_name", CallEv.fieldCall "the_age",
         CallEv.subtreeCall, CallEv.subtreeCall]⟩ ∧
    doValidation
        (IVal.obj [("people", IVal.lst
          [IVal.obj [("the_name", IVal.str "b"), ("the_age", IVal.int 0)],
           IVal.obj [("the_name", IVal.str " c "), ("the_age", IVal.int 0)]])])
        (GType.inputObject InputForTests) =
      Except.ok ⟨IVal.obj [("people", IVal.lst
          [IVal.obj [("the_name", IVal.str "b"), ("the_age", IVal.int 0)],
           IVal.obj [("the_name", IVal.str "c"), ("the_age", IVal.int 0)]])], none,
        [CallEv.fieldCall "the_name", CallEv.fieldCall "the_age",
         CallEv.fieldCall "the_name", CallEv.fieldCall "the_age",
         CallEv.subtreeCall, CallEv.subtreeCall, CallEv.subtreeCall]⟩ ∧
    doValidation (IVal.obj [("email", IVal.str "no-at-sign")]) (GType.inputObject InputForTests) =
      Except.ok ⟨IVal.obj [("email", IVal.str "no-at-sign")],
        some ⟨"ValidationError",
          [⟨some "InvalidEmailFormat", none, some [PathSeg.fieldName "email"]⟩]⟩,
        [CallEv.fieldCall "email"]⟩ :=
  ⟨rfl, rfl, rfl, rfl⟩

/-- Counterexample to claim C7: the orchestrator discards a subtree validator's
return value.  The `TransformingInput` root validator returns
`{"x": "changed"}` — different from the subtree it was given — on every input,
yet the pass completes with the tree still `{"x": "orig"}`: nothing was merged
or substituted back. -/
theorem validation_c7_counterexample :
    VClass.subtreeValidator TransformingInput =
      some (fun _ => Except.ok (IVal.obj [("x", IVal.str "changed")])) ∧
    doValidation (IVal.obj [("x", IVal.str "orig")]) (GType.inputObject TransformingInput) =
      Except.ok ⟨IVal.obj [("x", IVal.str "orig")], none,
        [CallEv.fieldCall "x", CallEv.subtreeCall]⟩ :=
  ⟨rfl, rfl⟩

theorem assembleResult_tree (tree1 : IVal) (root : GType) (stv : List (IVal × GType))
    (fe : List ErrDetail) (calls1 : List CallEv) :
    (assembleResult tree1 root stv fe calls1).tree = tree1 := by
  cases fe with
  | nil =>
    cases hS : (runSubtreePhase (stv ++ [(tree1, root)])).1 <;> simp [assembleResult, hS]
  | cons d ds => simp [assembleResult]

/-- Claim C7, amended: phase 2 ignores subtree validators' return values
entirely — `_do_validation` calls `validate` without binding its result — so
the tree a completed pass hands back is exactly the phase-1 (field-transform)
tree, whatever the subtree validators return.  (In Python a subtree validator
could still be observed by mutating its aliased argument in place, but nothing
is merged or substituted back from its return value.) -/
theorem validation_c7_subtree_return_discarded_amended
    (tree : IVal) (argTy : GType) (ftv : List FieldEntry) (stv : List (IVal × GType))
    (tree1 : IVal) (errs : List ErrDetail) (calls1 : List CallEv)
    (hU : unpackInputTree tree (unwrapValidator argTy) = Except.ok (ftv, stv))
    (hF : runFieldPhase tree ftv = Except.ok (tree1, errs, calls1)) :
    ∀ r : VResult, doValidation tree argTy = Except.ok r → r.tree = tree1 := by
  intro r hD
  simp only [doValidation, hU, hF] at hD
  cases hD
  exact assembleResult_tree tree1 (unwrapValidator argTy) stv errs calls1

/-- Witness for the amended C7 at `{"x": "orig"}` against `TransformingInput`:
the completed pass returns the phase-1 tree unchanged even though the root
subtree validator returned a different value. -/
theorem validation_c7_amended_witness :
    (VResult.mk (IVal.obj [("x", IVal.str "orig")]) none
      [CallEv.fieldCall "x", CallEv.subtreeCall]).tree = IVal.obj [("x", IVal.str "orig")] :=
  validation_c7_subtree_return_discarded_amended
    (IVal.obj [("x", IVal.str "orig")]) (GType.inputObject TransformingInput)
    [FieldEntry.root "x" (IVal.str "orig") (GType.inputObject TransformingInput) none] []
    (IVal.obj [("x", IVal.str "orig")]) [] [CallEv.fieldCall "x"] rfl rfl
    (VResult.mk (IVal.obj [("x", IVal.str "orig")]) none
      [CallEv.fieldCall "x", CallEv.subtreeCall]) rfl

/-- Claim C8: a list-of-scalars field is validated as one unit.  For
`{"numbers": [1]}` against `InputForTests` the traversal records exactly one
field task (named `numbers`, no index) and no subtree tasks — elements are
never unpacked — and the length-invariant violation yields exactly one error
record whose path is `["numbers"]`, with no per-element paths. -/
theorem utils_c8_list_of_scalars_atomic :
    (unpackInputTree (IVal.obj [("numbers", IVal.lst [IVal.int 1])])
        (GType.inputObject InputForTests)).map
        (fun p => (p.1.map FieldEntry.name, p.1.map FieldEntry.idx, p.2.length)) =
      Except.ok (["numbers"], [none], 0) ∧
    doValidation (IVal.obj [("numbers", IVal.lst [IVal.int 1])])
        (GType.inputObject InputForTests) =
      Except.ok ⟨IVal.obj [("numbers", IVal.lst [IVal.int 1])],
        some ⟨"ValidationError",
          [⟨some "LengthNotInRange", some [("min", some 2), ("max", none)],
            some [PathSeg.fieldName "numbers"]⟩]⟩,
        [CallEv.fieldCall "numbers"]⟩ :=
  ⟨rfl, rfl⟩

/-- Claim C9: a field validator that raises the *base* `ValidationError` — whose
`error_details` is empty — contributes zero detail records, so (with no other
failures) no aggregate is raised, phase 2 still runs (the `subtreeCall` in the
trace), and the wrapped mutation proceeds to the business logic exactly as if
validation had succeeded: the raise is silently ignored. -/
theorem errors_c9_empty_details_silently_ignored :
    VError.errorDetails baseValidationError = [] ∧
    doValidation (IVal.obj [("x", IVal.int 1)]) (GType.inputObject SilentFailInput) =
      Except.ok ⟨IVal.obj [("x", IVal.int 1)], none,
        [CallEv.fieldCall "x", CallEv.subtreeCall]⟩ ∧
    wrapperMutate ⟨[("inpt", GType.inputObject SilentFailInput)]⟩
        [("inpt", IVal.obj [("x", IVal.int 1)])] =
      Except.ok (MutOutcome.completed [("inpt", IVal.obj [("x", IVal.int 1)])]
        [CallEv.fieldCall "x", CallEv.subtreeCall]) :=
  ⟨rfl, rfl, rfl⟩

/-- Claim C10: the wrapped `mutate` validates only when it receives at least one
keyword argument, and then validates only the *first* keyword argument as the
input tree (the rest are forwarded untouched and unvalidated); with no keyword
arguments it forwards directly to the original `mutate` without running any
validator (empty invocation trace). -/
theorem decorators_c10_wrapper_validates_first_kwarg_only :
    (∀ cls : MutationCls, wrapperMutate cls [] = Except.ok (MutOutcome.completed [] [])) ∧
    (∀ (cls : MutationCls) (k : String) (tree : IVal) (rest : List (String × IVal))
       (argTy : GType) (r : VResult),
      lookupArg cls.argumentsTypes k = some argTy →
      doValidation tree argTy = Except.ok r →
      wrapperMutate cls ((k, tree) :: rest) =
        Except.ok (match r.raised with
          | some g => MutOutcome.raisedAggregate g
          | none => MutOutcome.completed ((k, r.tree) :: rest) r.calls)) := by
  constructor
  · intro cls; rfl
  · intro cls k tree rest argTy r h1 h2
    simp only [wrapperMutate, h1, h2]
    cases hR : r.raised <;> simp [hR]

/-- Witness for C10: a two-kwarg call against `SilentFailInput` in which only
the first kwarg is validated and both are forwarded, the second untouched. -/
theorem decorators_c10_witness :
    wrapperMutate ⟨[("inpt", GType.inputObject SilentFailInput)]⟩
        [("inpt", IVal.obj [("x", IVal.int 2)]), ("other", IVal.str "ignored")] =
      Except.ok (MutOutcome.completed
        [("inpt", IVal.obj [("x", IVal.int 2)]), ("other", IVal.str "ignored")]
        [CallEv.fieldCall "x", CallEv.subtreeCall]) :=
  decorators_c10_wrapper_validates_first_kwarg_only.2
    ⟨[("inpt", GType.inputObject SilentFailInput)]⟩ "inpt"
    (IVal.obj [("x", IVal.int 2)]) [("other", IVal.str "ignored")]
    (GType.inputObject SilentFailInput)
    (VResult.mk (IVal.obj [("x", IVal.int 2)]) none
      [CallEv.fieldCall "x", CallEv.subtreeCall]) rfl rfl
